import Mathlib

/-!
Shallow embedding of the node-bundle collection coordinator of
support-bundle-kit (`pkg/manager`): the `SupportBundleManager` phase state
machine (`Run`), its configuration check (`check`), the node set tracker
(`refreshNodes` / `completeNode`), the node-bundle collection wait
(`collectNodeBundles`), artifact verification (`verifyNodeBundle`), and the
packaging step (`compressBundle`).

External effects (the Kubernetes API, the filesystem, the `zip` binary, the
signal channel) are made explicit: fallible external calls become `Option
String` / `Except String` parameters holding the error the call would
return, and each embedded function also reports the observable events the Go
code performs (log lines, channel sends, files renamed, commands run), so
that the theorems can speak about them.
-/

namespace SupportBundleKit

/-- The five manager phases, in the order the `phases` slice in `Run` lists
them (`types.ManagerPhase` constants). -/
inductive ManagerPhase where
  | init
  | clusterBundle
  | nodeBundle
  | packaging
  | done
deriving DecidableEq, Repr, Fintype

/-- Position of a phase in the `phases` slice of `Run`. -/
def ManagerPhase.idx : ManagerPhase → Nat
  | .init => 0
  | .clusterBundle => 1
  | .nodeBundle => 2
  | .packaging => 3
  | .done => 4

/-- ManagerStatus as read by the external status reporter: current phase,
integer progress, optional error message, and the final bundle file
name/size. The Go struct lives outside the given sources; its setters are
taken as plain field updates. -/
structure ManagerStatus where
  phase : Option ManagerPhase
  progress : Nat
  error : Option String
  filename : Option String
  filesize : Int
deriving DecidableEq, Repr

/-- Status at manager start: no phase, zero progress, no error, no file. -/
def ManagerStatus.initial : ManagerStatus :=
  { phase := none, progress := 0, error := none, filename := none, filesize := 0 }

/-- Modelled from the spec: `SetPhase` records the phase name in
ManagerStatus (the status type's methods are not among the given sources;
the spec describes ManagerStatus as plain phase/progress/error/file data
mutated only by the phase state machine). -/
def ManagerStatus.setPhase (s : ManagerStatus) (p : ManagerPhase) : ManagerStatus :=
  { s with phase := some p }

/-- Modelled from the spec: `SetProgress` records the integer progress
percentage. -/
def ManagerStatus.setProgress (s : ManagerStatus) (n : Nat) : ManagerStatus :=
  { s with progress := n }

/-- Modelled from the spec: `SetError` records the error message verbatim for
the external status reader. -/
def ManagerStatus.setError (s : ManagerStatus) (e : String) : ManagerStatus :=
  { s with error := some e }

/-- Modelled from the spec: `SetFileinfo` records the final archive name and
byte size. -/
def ManagerStatus.setFileinfo (s : ManagerStatus) (name : String) (size : Int) : ManagerStatus :=
  { s with filename := some name, filesize := size }

/-! ## Node set tracker

`m.expectedNodes` is a Go map from node name to an (always empty) string;
only the key set matters. `m.done` is the one-shot guard on the completion
channel `m.ch`. All of `completeNode` runs under `m.nodesLock`, so the
embedding treats each call as atomic. The Go map's key set is modelled as a
duplicate-free `List String` (map insertion of a present key is dropped by
`insertKey`). -/

/-- Tracker state: the expected-node key set and the one-shot `done` flag. -/
structure TrackerState where
  expectedNodes : List String
  done : Bool
deriving DecidableEq, Repr

/-- Map-insert of a key into the key-set list: a present key is not added
again, matching Go map assignment `m.expectedNodes[node.Name] = ""`. -/
def insertKey (ks : List String) (k : String) : List String :=
  if k ∈ ks then ks else ks ++ [k]

/-- Key set of the Go map built by inserting every name in order. -/
def keySetOf (names : List String) : List String :=
  names.foldl insertKey []

/-- Observable outcome of one `completeNode(node)` call: the new tracker
state, whether the node was found in the expected set (`ok`, i.e. the call
took the delete branch), whether the unknown-node warning was logged, and
whether the completion signal was sent on `m.ch` by this call. -/
structure CompleteResult where
  state : TrackerState
  ok : Bool
  warnedUnknown : Bool
  fired : Bool
deriving DecidableEq, Repr

/-- Embedding of `SupportBundleManager.completeNode` (manager.go): under the
lock, delete the node from `expectedNodes` if present, else log an
unknown-node warning; then, if the set is empty and `done` is still false,
send on `m.ch` once and latch `done`. -/
def completeNode (node : String) (s : TrackerState) : CompleteResult :=
  let ok : Bool := decide (node ∈ s.expectedNodes)
  let expected := if node ∈ s.expectedNodes then s.expectedNodes.erase node else s.expectedNodes
  let fire : Bool := expected.isEmpty && !s.done
  { state := { expectedNodes := expected, done := if expected.isEmpty then true else s.done }
    ok := ok
    warnedUnknown := !ok
    fired := fire }

/-- Run a whole sequence of `completeNode` calls, returning the final state
and how many of the calls sent on the completion channel. -/
def runCalls (calls : List String) (s : TrackerState) : TrackerState × Nat :=
  match calls with
  | [] => (s, 0)
  | c :: rest =>
    let r := completeNode c s
    let t := runCalls rest r.state
    (t.1, (if r.fired then 1 else 0) + t.2)

/-! ## Manager configuration and `check` -/

/-- Configuration fields of `SupportBundleManager` consulted by `check`,
`phaseInit`, `collectNodeBundles` and `compressBundle`. `Namespaces` is the
slice produced in `phaseInit` by splitting `NamespaceList` on commas. -/
structure Manager where
  Namespaces : List String
  NamespaceList : String
  BundleName : String
  bundleFileName : String
  OutputDir : String
  ManagerPodIP : String
  ImageName : String
  ImagePullPolicy : String
  NodeSelector : String
deriving DecidableEq, Repr

/-- Embedding of `getWorkingDir`: `filepath.Join(m.OutputDir, "bundle")`.
Path joining is modelled as slash concatenation (both arguments are
non-empty, already-clean paths wherever the code calls this). -/
def joinPath (a b : String) : String := a ++ "/" ++ b

/-- Embedding of `SupportBundleManager.getWorkingDir`. -/
def Manager.getWorkingDir (m : Manager) : String := joinPath m.OutputDir "bundle"

/-- Embedding of `SupportBundleManager.getBundlefile`:
`filepath.Join(m.OutputDir, m.bundleFileName)`. -/
def Manager.getBundlefile (m : Manager) : String := joinPath m.OutputDir m.bundleFileName

/-- Embedding of `os.TempDir()` joined with "support-bundle-kit", the default
applied to an empty `OutputDir` by `check`. -/
def defaultOutputDir : String := joinPath "/tmp" "support-bundle-kit"

/-- Embedding of `SupportBundleManager.check` (manager.go): each required
input missing yields an error; an empty `OutputDir` is defaulted; finally
`os.MkdirAll(m.getWorkingDir(), 0755)` runs, whose external outcome is the
`mkdirErr` parameter. Returns the (possibly OutputDir-updated) manager and
the error returned, `none` on success. -/
def Manager.check (m : Manager) (mkdirErr : Option String) : Manager × Option String :=
  if m.Namespaces.length = 0 ∨ (m.Namespaces.headD "").length = 0 then
    (m, some "namespace is not specified")
  else if m.BundleName = "" then
    (m, some "support bundle name is not specified")
  else if m.ManagerPodIP = "" then
    (m, some "manager pod IP is not specified")
  else if m.ImageName = "" then
    (m, some "image name is not specified")
  else if m.ImagePullPolicy = "" then
    (m, some "image pull policy is not specified")
  else
    let m := if m.OutputDir = "" then { m with OutputDir := defaultOutputDir } else m
    (m, mkdirErr)

/-! ## `phaseInit`

The phase first splits `NamespaceList` into `Namespaces` and runs `check`;
only after `check` succeeds does it install the signal context
(`m.context = signals.SetupSignalHandler(...)`), initialize the clients and
the state store, read the stored state, and start the HTTP server. The
external steps after `check` (in-cluster config, client construction, state
fetch and its value) are abstracted into the `restErr` parameter: `none`
means they all succeeded. -/

/-- Splitting a character list at every occurrence of a separator, keeping
empty segments — the semantics of Go `strings.Split` with a one-character
separator (on the empty string it yields one empty segment, as Go does). -/
def splitChars (sep : Char) (cs : List Char) : List (List Char) :=
  match cs with
  | [] => [[]]
  | c :: rest =>
    let groups := splitChars sep rest
    if c = sep then [] :: groups
    else
      match groups with
      | [] => [[c]]
      | g :: gs => (c :: g) :: gs

/-- Embedding of `strings.Split(s, ",")` as used in `phaseInit`. -/
def goSplit (s : String) (sep : Char) : List String :=
  (splitChars sep s.data).map String.mk

/-- Trace of one `phaseInit` call: the error it returns (`none` = success),
whether the signal context was installed (it is, right after `check`
passes), and whether client/state initialization was reached. -/
structure InitTrace where
  result : Option String
  contextSet : Bool
  clientsReached : Bool
deriving DecidableEq, Repr

/-- Embedding of `SupportBundleManager.phaseInit`: split the namespace list,
run `check`, then (context installed) run the remaining external
initialization whose outcome is `restErr`. -/
def phaseInit (m : Manager) (mkdirErr restErr : Option String) : Manager × InitTrace :=
  let m1 := { m with Namespaces := goSplit m.NamespaceList ',' }
  let checked := m1.check mkdirErr
  match checked.2 with
  | some e =>
    (checked.1, { result := some e, contextSet := false, clientsReached := false })
  | none =>
    (checked.1, { result := restErr, contextSet := true, clientsReached := true })

/-! ## Phase state machine (`Run`)

`Run` iterates the fixed five-element `phases` slice; for each phase it sets
the phase name in the status, runs the action, and on error records the
error and breaks; on success it sets progress to `100 * (i + 1) /
len(phases)`. The per-phase actions' outcomes are abstracted into a function
`outcome : ManagerPhase → Option String` giving the error each action would
return. After the loop, `Run` blocks on `<-m.context.Done()` and returns
`nil`. -/

/-- The `phases` slice of `Run`, in source order. -/
def phasesList : List ManagerPhase :=
  [.init, .clusterBundle, .nodeBundle, .packaging, .done]

/-- Trace of the phase loop: final status, which phases had their action
executed (in order), and the successive progress values recorded. -/
structure RunTrace where
  status : ManagerStatus
  executed : List ManagerPhase
  progressUpdates : List Nat
deriving DecidableEq, Repr

/-- The loop body of `Run` over the remaining phases, with `i` the current
index and `total = len(phases)`. -/
def runLoop (outcome : ManagerPhase → Option String) (total : Nat) :
    Nat → List ManagerPhase → ManagerStatus → RunTrace
  | _, [], st => { status := st, executed := [], progressUpdates := [] }
  | i, p :: rest, st =>
    let st1 := st.setPhase p
    match outcome p with
    | some e => { status := st1.setError e, executed := [p], progressUpdates := [] }
    | none =>
      let progress := 100 * (i + 1) / total
      let st2 := st1.setProgress progress
      let t := runLoop outcome total (i + 1) rest st2
      { status := t.status, executed := p :: t.executed,
        progressUpdates := progress :: t.progressUpdates }

/-- The phase loop of `SupportBundleManager.Run`, from the initial status. -/
def runPhases (outcome : ManagerPhase → Option String) : RunTrace :=
  runLoop outcome phasesList.length 0 phasesList ManagerStatus.initial

/-! ## Node-bundle collection (`refreshNodes`, `collectNodeBundles`)

`refreshNodes` lists nodes by the label selector (external call, abstracted
into an `Except String (List String)` of node names), fails when the list is
empty, and rebuilds `expectedNodes` from the names. `collectNodeBundles`
then creates the agent daemonset (`AgentDaemonSet.Create`, external,
abstracted into `createErr`) and blocks on `<-m.ch` — with no timeout and no
other select arm — until `completeNode` sends on the channel; the sequence
of `completeNode(node)` calls the HTTP handler would perform during the wait
is the `uploads` parameter. -/

/-- Embedding of `SupportBundleManager.refreshNodes`: on a successful node
list, error when no nodes are found, otherwise the new expected key set. -/
def refreshNodes (nodesList : Except String (List String)) :
    Except String (List String) :=
  match nodesList with
  | .error e => .error e
  | .ok names =>
    if names.length = 0 then .error "no nodes are found"
    else .ok (keySetOf names)

/-- How one `collectNodeBundles` call ends: it either returns (with `none`
for success or `some e` for an error), or it is permanently blocked on
`<-m.ch` because no `completeNode` call ever sends the completion signal. -/
inductive CollectEnd where
  | returned (err : Option String)
  | blockedOnChannel
deriving DecidableEq, Repr

/-- Trace of one `collectNodeBundles` call: how it ended and whether
`AgentDaemonSet.Create` was invoked. -/
structure CollectTrace where
  outcome : CollectEnd
  createCalled : Bool
deriving DecidableEq, Repr

/-- Whether processing the given `completeNode` calls, starting from a fresh
tracker over `expected`, ever sends the completion signal on `m.ch`. -/
def signalFires (expected : List String) (uploads : List String) : Bool :=
  0 < (runCalls uploads { expectedNodes := expected, done := false }).2

/-- Embedding of `SupportBundleManager.collectNodeBundles`: make the
channel, refresh the node set (error out on failure), create the agent
daemonset (error out on failure), block on `<-m.ch` (released only if some
`completeNode` call in `uploads` fires the signal; there is no timeout arm),
then clean up the daemonset (`cleanupErr`, wrapped on failure). -/
def collectNodeBundles (nodesList : Except String (List String))
    (createErr : Option String) (uploads : List String)
    (cleanupErr : Option String) : CollectTrace :=
  match refreshNodes nodesList with
  | .error e => { outcome := .returned (some e), createCalled := false }
  | .ok expected =>
    match createErr with
    | some e => { outcome := .returned (some e), createCalled := true }
    | none =>
      if signalFires expected uploads then
        match cleanupErr with
        | some e =>
          { outcome := .returned (some ("fail to cleanup agent daemonset: " ++ e))
            createCalled := true }
        | none => { outcome := .returned none, createCalled := true }
      else
        { outcome := .blockedOnChannel, createCalled := true }

/-- Embedding of `SupportBundleManager.phaseCollectNodeBundles`: run
`collectNodeBundles`; an error is logged and discarded ("a support bundle
with partial data is also useful") and the phase returns `nil`. A
permanently blocked collection blocks the phase as well. -/
def phaseCollectNodeBundles (nodesList : Except String (List String))
    (createErr : Option String) (uploads : List String)
    (cleanupErr : Option String) : CollectEnd :=
  match (collectNodeBundles nodesList createErr uploads cleanupErr).outcome with
  | .returned _ => .returned none
  | .blockedOnChannel => .blockedOnChannel

/-! ## Whole-run model (`Run` including the final context wait)

After the phase loop, `Run` executes `<-m.context.Done()` and returns
`nil`. The `context` field is only ever assigned inside `phaseInit`, after
`check` succeeds; if `check` fails, the loop breaks with `m.context` still
the nil interface, and calling `Done()` on it panics. The external context
being cancellable is what eventually releases the final wait; `Run` never
returns before that. -/

/-- How a whole `Run` call ends: it either panics on the nil context
(`check` failed, so the context was never installed), or it reaches
`<-m.context.Done()`, waits for the external context to be cancelled, and
then returns `nil` — never an error value. -/
inductive RunEnd where
  | nilContextPanic (trace : RunTrace)
  | waitedForContextThenNil (trace : RunTrace)
deriving DecidableEq, Repr

/-- The value `Run` returns, when it returns at all: `none` models Go `nil`,
`some e` an error. A panicking run returns nothing. -/
def RunEnd.returnValue : RunEnd → Option (Option String)
  | .nilContextPanic _ => none
  | .waitedForContextThenNil _ => some none

/-- Embedding of `SupportBundleManager.Run` end to end: the phase loop runs
with `phaseInit`'s outcome determined by the configuration (its remaining
four actions' outcomes abstracted into `outcome`), then the final
`<-m.context.Done()` either panics (context never installed because `check`
failed) or waits for cancellation and returns `nil`. -/
def runManager (m : Manager) (mkdirErr restErr : Option String)
    (outcome : ManagerPhase → Option String) : RunEnd :=
  let ini := (phaseInit m mkdirErr restErr).2
  let trace := runPhases (fun p => if p = .init then ini.result else outcome p)
  if ini.contextSet then .waitedForContextThenNil trace
  else .nilContextPanic trace

/-! ## Artifact verification and the ingestion handler

`verifyNodeBundle` is `zip.OpenReader(file)` on the persisted upload: the
artifact is accepted exactly when the file opens as a valid zip archive. A
byte stream is modelled as a list of byte values. -/

/-- Modelled from the archive/zip library behaviour relied on by
`verifyNodeBundle`: a file is openable as a zip archive only if it contains
a well-formed end-of-central-directory record, which is at least 22 bytes
ending the file and starts with the signature bytes 0x50 0x4B 0x05 0x06; in
particular an empty file is never openable. The model checks exactly that
minimal structure. -/
def zipOpenable (bytes : List Nat) : Bool :=
  22 ≤ bytes.length &&
    (bytes.drop (bytes.length - 22)).take 4 = [0x50, 0x4B, 0x05, 0x06]

/-- Embedding of `SupportBundleManager.verifyNodeBundle`: return the error
of `zip.OpenReader` on the persisted file, `none` when it opens. -/
def verifyNodeBundle (file : List Nat) : Option String :=
  if zipOpenable file then none else some "zip: not a valid zip file"

/-- Outcome of one ingestion-handler invocation: whether the HTTP response
was a success status, whether `completeNode` was called, and the tracker
state after the call. -/
structure UploadResult where
  respondedOK : Bool
  completeNodeCalled : Bool
  tracker : TrackerState
deriving DecidableEq, Repr

/-- Modelled from the spec: the node-bundle ingestion handler (the
`HttpServer` request handler is not among the given sources). It persists
the body to a node-scoped path, validates it with `verifyNodeBundle`, and on
failure responds with an error status without calling `completeNode`; on
success it calls `completeNode(nodeID)` and responds with a success status
regardless of whether the node was still expected. -/
def handleNodeBundle (nodeID : String) (body : List Nat) (t : TrackerState) :
    UploadResult :=
  match verifyNodeBundle body with
  | some _ => { respondedOK := false, completeNodeCalled := false, tracker := t }
  | none =>
    let r := completeNode nodeID t
    { respondedOK := true, completeNodeCalled := true, tracker := r.state }

/-! ## Packaging (`compressBundle` and the bundle file name)

`GenerateClusterBundle` (cluster.go) computes the bundle file name
`supportbundle_<namespace UID>_<created-at with ":" replaced by "-">.zip`;
`compressBundle` derives the directory name by trimming the extension of the
bundle file from that name, renames the working directory to it, runs
`zip -r <bundlefile> <dir>` in `OutputDir`, and on success records the file
name and its size in the status. The three external effects (rename, the
zip process, stat-ing the produced file) are abstracted into parameters. -/

/-- Embedding of `strings.TrimSuffix`: when `suf` is a suffix of `s`, the
copy of `s` without it, else `s` unchanged (Go strings are byte sequences;
they are modelled as their character lists). -/
def trimSuffix (s suf : String) : String :=
  if suf.data <:+ s.data then String.mk (s.data.take (s.data.length - suf.data.length))
  else s

/-- Embedding of `filepath.Ext`: scanning the path from its end up to the
first path separator, the suffix starting at the final dot, empty when the
final path element has no dot — exactly Go's right-to-left scan. -/
def filepathExt (p : String) : String :=
  let seg := p.data.reverse.takeWhile (fun c => c ≠ '/')
  if '.' ∈ seg then String.mk ('.' :: (seg.takeWhile (fun c => c ≠ '.')).reverse)
  else ""

/-- Embedding of `strings.Replace(s, ":", "-", -1)` as used on the creation
timestamp in `GenerateClusterBundle`. -/
def colonsToDashes (s : String) : String :=
  String.mk (s.toList.map (fun c => if c = ':' then '-' else c))

/-- Embedding of the bundle file name computed by
`Cluster.GenerateClusterBundle`:
`fmt.Sprintf("supportbundle_%s_%s.zip", namespaceUID, createdAt)` with the
colons of the creation timestamp replaced by dashes. -/
def generateBundleFileName (namespaceUID createdAt : String) : String :=
  "supportbundle_" ++ namespaceUID ++ "_" ++ colonsToDashes createdAt ++ ".zip"

/-- Trace of one `compressBundle` call: the returned error (`none` on
success), the resulting status, the source and target of the rename, and the
argument list of the `zip` command when it was run. -/
structure CompressTrace where
  result : Option String
  status : ManagerStatus
  renameFrom : String
  renameTo : String
  zipArgs : Option (List String)
deriving DecidableEq, Repr

/-- Embedding of `SupportBundleManager.compressBundle`: derive `bundleDir`
from the bundle file name, rename the working directory onto it (failure
wrapped as "fail to compress bundle"), run `zip -r <bundlefile> <bundleDir>`
in `OutputDir` (failure wrapped the same way), stat the bundle file
(failure wrapped as "fail to get bundle file size"), and record name and
size in the status. -/
def compressBundle (m : Manager) (st : ManagerStatus)
    (renameErr zipErr : Option String) (sizeResult : Except String Int) :
    CompressTrace :=
  let bundleDir := trimSuffix m.bundleFileName (filepathExt m.getBundlefile)
  let bundleDirPath := joinPath m.OutputDir bundleDir
  match renameErr with
  | some e =>
    { result := some ("fail to compress bundle: " ++ e), status := st
      renameFrom := m.getWorkingDir, renameTo := bundleDirPath, zipArgs := none }
  | none =>
    match zipErr with
    | some e =>
      { result := some ("fail to compress bundle: " ++ e), status := st
        renameFrom := m.getWorkingDir, renameTo := bundleDirPath
        zipArgs := some ["-r", m.getBundlefile, bundleDir] }
    | none =>
      match sizeResult with
      | .error e =>
        { result := some ("fail to get bundle file size: " ++ e), status := st
          renameFrom := m.getWorkingDir, renameTo := bundleDirPath
          zipArgs := some ["-r", m.getBundlefile, bundleDir] }
      | .ok size =>
        { result := none, status := st.setFileinfo m.bundleFileName size
          renameFrom := m.getWorkingDir, renameTo := bundleDirPath
          zipArgs := some ["-r", m.getBundlefile, bundleDir] }

/-- Embedding of `SupportBundleManager.phasePackaging`: the phase action is
exactly `compressBundle`, so its error is the phase's error. -/
def phasePackaging (m : Manager) (st : ManagerStatus)
    (renameErr zipErr : Option String) (sizeResult : Except String Int) :
    Option String :=
  (compressBundle m st renameErr zipErr sizeResult).result

/-- A concrete configuration with every required input set except the
bundle name. -/
def cfgNoBundleName : Manager where
  Namespaces := []
  NamespaceList := "ns"
  BundleName := ""
  bundleFileName := ""
  OutputDir := "/out"
  ManagerPodIP := "10.0.0.1"
  ImageName := "img"
  ImagePullPolicy := "IfNotPresent"
  NodeSelector := ""

/-- A concrete configuration with every required input set. -/
def cfgComplete : Manager where
  Namespaces := []
  NamespaceList := "ns"
  BundleName := "bundle-1"
  bundleFileName := ""
  OutputDir := "/out"
  ManagerPodIP := "10.0.0.1"
  ImageName := "img"
  ImagePullPolicy := "IfNotPresent"
  NodeSelector := ""

/-- A concrete manager configuration carrying a bundle file name as
generated for namespace UID "abc-123" at a colon-bearing timestamp. -/
def cfgPackaging : Manager :=
  { cfgComplete with
      bundleFileName := generateBundleFileName "abc-123" "2021-07-01T08:12:33Z" }

/-! ## Helper lemmas -/

/-- Once `done` is latched, a `completeNode` call never fires the signal and
keeps `done` latched. -/
lemma completeNode_done (n : String) (s : TrackerState) (h : s.done = true) :
    (completeNode n s).fired = false ∧ (completeNode n s).state.done = true := by
  simp [completeNode, h]

/-- A call that fires the signal latches `done`. -/
lemma completeNode_fired_latches (n : String) (s : TrackerState)
    (h : (completeNode n s).fired = true) : (completeNode n s).state.done = true := by
  simp [completeNode] at h ⊢
  simp [h.1]

/-- With `done` latched, a whole call sequence fires no signal. -/
lemma runCalls_done (calls : List String) (s : TrackerState) (h : s.done = true) :
    (runCalls calls s).2 = 0 := by
  induction calls generalizing s with
  | nil => simp [runCalls]
  | cons c rest ih =>
    have hd := completeNode_done c s h
    simp [runCalls, hd.1, ih _ hd.2]

/-- Any call sequence fires the completion signal at most once. -/
lemma runCalls_fires_le_one (calls : List String) (s : TrackerState) :
    (runCalls calls s).2 ≤ 1 := by
  induction calls generalizing s with
  | nil => simp [runCalls]
  | cons c rest ih =>
    by_cases h : (completeNode c s).fired
    · have := runCalls_done rest _ (completeNode_fired_latches c s h)
      simp [runCalls, h, this]
    · simp [runCalls, h]
      exact ih _

/-- Key sets built by Go-map insertion are duplicate-free. -/
lemma keySetOf_nodup (names : List String) : (keySetOf names).Nodup := by
  have h : ∀ (ns : List String) (acc : List String), acc.Nodup →
      (ns.foldl insertKey acc).Nodup := by
    intro ns
    induction ns with
    | nil => intro acc hacc; simpa using hacc
    | cons n rest ih =>
      intro acc hacc
      refine ih _ ?_
      by_cases hn : n ∈ acc
      · simpa [insertKey, hn] using hacc
      · simp [insertKey, hn, List.nodup_append, hacc]
  exact h names [] List.nodup_nil

/-! ## Claims about the node set tracker -/

/-- C3. The completion signal is raised exactly once per run: a
`completeNode` call that leaves the expected set empty fires the signal when
`done` is not yet latched; once `done` is latched (which every firing call
does) no later call fires — so no later call performs the potentially
blocking channel send — and any sequence of calls fires at most once. -/
theorem completion_signal_exactly_once (s : TrackerState) (n : String)
    (calls : List String) :
    (s.done = false → (completeNode n s).state.expectedNodes = [] →
      (completeNode n s).fired = true)
    ∧ ((completeNode n s).fired = true → (completeNode n s).state.done = true)
    ∧ (s.done = true → (completeNode n s).fired = false)
    ∧ (runCalls calls s).2 ≤ 1 := by
  refine ⟨?_, completeNode_fired_latches n s, fun h => (completeNode_done n s h).1,
    runCalls_fires_le_one calls s⟩
  intro hdone hempty
  simp [completeNode] at hempty ⊢
  simp [hempty, hdone]

/-- Witness for C3 at a concrete input: completing the only expected node
fires the signal; the firing latches `done`; a call with `done` latched does
not fire; and the four-call sequence fires exactly once overall. -/
theorem completion_signal_exactly_once_w :
    (completeNode "a" { expectedNodes := ["a"], done := false }).fired = true
    ∧ (completeNode "a" { expectedNodes := ["a"], done := false }).state.done = true
    ∧ (completeNode "b" { expectedNodes := [], done := true }).fired = false
    ∧ (runCalls ["a", "a", "b", "a"] { expectedNodes := ["a"], done := false }).2 ≤ 1 := by
  have h1 := completion_signal_exactly_once { expectedNodes := ["a"], done := false } "a" []
  have h2 := completion_signal_exactly_once { expectedNodes := [], done := true } "b" []
  have h3 := completion_signal_exactly_once { expectedNodes := ["a"], done := false } "x"
    ["a", "a", "b", "a"]
  refine ⟨h1.1 rfl (by decide), h1.2.1 (h1.1 rfl (by decide)), h2.2.2.1 rfl, h3.2.2.2⟩

/-- C4. `completeNode` removes a present node from the expected set and
reports it found (`ok = true`, no unknown-node warning); an absent node
leaves the set unchanged, logs the unknown-node warning and reports
`ok = false`; the initial expected set built from the node list is
duplicate-free, and on a duplicate-free set a node is removed at most once:
repeating the call finds it absent. -/
theorem completeNode_markComplete (s : TrackerState) (n : String)
    (names : List String) :
    (n ∈ s.expectedNodes →
      (completeNode n s).ok = true
      ∧ (completeNode n s).warnedUnknown = false
      ∧ (completeNode n s).state.expectedNodes = s.expectedNodes.erase n)
    ∧ (n ∉ s.expectedNodes →
      (completeNode n s).ok = false
      ∧ (completeNode n s).warnedUnknown = true
      ∧ (completeNode n s).state.expectedNodes = s.expectedNodes)
    ∧ (keySetOf names).Nodup
    ∧ (s.expectedNodes.Nodup →
      (completeNode n (completeNode n s).state).ok = false) := by
  refine ⟨fun h => by simp [completeNode, h], fun h => by simp [completeNode, h],
    keySetOf_nodup names, fun hnd => ?_⟩
  by_cases h : n ∈ s.expectedNodes
  · simp [completeNode, h, hnd.not_mem_erase]
  · simp [completeNode, h]

/-- Witness for C4 at a concrete input: node "a" in the two-node set is
found and removed, node "x" is reported unknown and changes nothing, the key
set of a duplicated listing is duplicate-free, and a second completion of
"a" no longer finds it. -/
theorem completeNode_markComplete_w :
    ((completeNode "a" { expectedNodes := ["a", "b"], done := false }).ok = true
      ∧ (completeNode "a" { expectedNodes := ["a", "b"], done := false }).warnedUnknown = false
      ∧ (completeNode "a" { expectedNodes := ["a", "b"], done := false }).state.expectedNodes
          = ["a", "b"].erase "a")
    ∧ ((completeNode "x" { expectedNodes := ["a", "b"], done := false }).ok = false
      ∧ (completeNode "x" { expectedNodes := ["a", "b"], done := false }).warnedUnknown = true
      ∧ (completeNode "x" { expectedNodes := ["a", "b"], done := false }).state.expectedNodes
          = ["a", "b"])
    ∧ (keySetOf ["a", "b", "a"]).Nodup
    ∧ (completeNode "a"
        (completeNode "a" { expectedNodes := ["a", "b"], done := false }).state).ok = false := by
  have h1 := completeNode_markComplete { expectedNodes := ["a", "b"], done := false } "a"
    ["a", "b", "a"]
  have h2 := completeNode_markComplete { expectedNodes := ["a", "b"], done := false } "x" []
  exact ⟨h1.1 (by decide), h2.2.1 (by decide), h1.2.2.1, h1.2.2.2 (by decide)⟩

/-! ## Claims about the node-bundle collection wait -/

/-- C1 (failing input). In a run in which zero nodes ever report, the
control thread is never released: `collectNodeBundles` over the expected
node set `{"node-a"}`, with the agent daemonset created successfully and no
`completeNode` call ever arriving, is permanently blocked on `<-m.ch` — the
configured `WaitTimeout` is never consulted and there is no timeout arm, so
the wait is not bounded and no timed-out return happens. -/
theorem collect_wait_has_no_timeout :
    collectNodeBundles (.ok ["node-a"]) none [] none
      = { outcome := CollectEnd.blockedOnChannel, createCalled := true } := by
  decide

/-- C2 (counterexample). With a node selector matching zero nodes (and every
other phase succeeding), the NodeBundle phase does not fail:
`collectNodeBundles` does return the "no nodes are found" error, but
`phaseCollectNodeBundles` swallows it and reports success, so the run
records no error in the status and the Packaging and Done phases are still
entered. -/
theorem nodeBundle_zero_nodes_cex :
    (collectNodeBundles (.ok []) none [] none).outcome
        = CollectEnd.returned (some "no nodes are found")
    ∧ phaseCollectNodeBundles (.ok []) none [] none = CollectEnd.returned none
    ∧ (runPhases (fun _ => none)).status.error = none
    ∧ ManagerPhase.packaging ∈ (runPhases (fun _ => none)).executed
    ∧ ManagerPhase.done ∈ (runPhases (fun _ => none)).executed := by
  decide

/-- C2 (amended). If the node selector matches zero nodes,
`collectNodeBundles` returns the "no nodes are found" error without creating
any agent workload; if creating the agent daemonset fails,
`collectNodeBundles` returns that error; but in every case in which
`collectNodeBundles` returns an error, `phaseCollectNodeBundles` logs and
discards it and the NodeBundle phase reports success, so the error is not
recorded in ManagerStatus and the later phases still run. -/
theorem nodeBundle_errors_swallowed (names : List String) (e : String)
    (nodesList : Except String (List String))
    (createErr cleanupErr : Option String) (uploads : List String) :
    (collectNodeBundles (.ok []) createErr uploads cleanupErr
      = { outcome := CollectEnd.returned (some "no nodes are found")
          createCalled := false })
    ∧ (names ≠ [] → collectNodeBundles (.ok names) (some e) uploads cleanupErr
      = { outcome := CollectEnd.returned (some e), createCalled := true })
    ∧ (∀ err, (collectNodeBundles nodesList createErr uploads cleanupErr).outcome
        = CollectEnd.returned err →
        phaseCollectNodeBundles nodesList createErr uploads cleanupErr
          = CollectEnd.returned none) := by
  refine ⟨by simp [collectNodeBundles, refreshNodes], fun h => ?_, fun err h => ?_⟩
  · simp [collectNodeBundles, refreshNodes, List.length_eq_zero, h]
  · simp [phaseCollectNodeBundles, h]

/-- Witness for C2's amended claim at concrete inputs: the zero-node
collection returns its error with no workload created, a failed daemonset
creation over one node returns its error, and the phase reports success on
the zero-node error. -/
theorem nodeBundle_errors_swallowed_w :
    (collectNodeBundles (.ok []) none [] none
      = { outcome := CollectEnd.returned (some "no nodes are found")
          createCalled := false })
    ∧ (collectNodeBundles (.ok ["n1"]) (some "schedule error") [] none
      = { outcome := CollectEnd.returned (some "schedule error"), createCalled := true })
    ∧ (phaseCollectNodeBundles (.ok []) none [] none = CollectEnd.returned none) := by
  have h := nodeBundle_errors_swallowed ["n1"] "schedule error" (.ok []) none none []
  exact ⟨h.1, h.2.1 (by decide), h.2.2 (some "no nodes are found") (by decide)⟩

/-! ## Helper lemmas about the phase loop -/

/-- The executed phases are an initial segment of the phase list the loop
was given. -/
lemma runLoop_exec_take (outcome : ManagerPhase → Option String) (total : Nat) :
    ∀ (l : List ManagerPhase) (i : Nat) (st : ManagerStatus),
      (runLoop outcome total i l st).executed
        = l.take (runLoop outcome total i l st).executed.length := by
  intro l
  induction l with
  | nil => intro i st; simp [runLoop]
  | cons p rest ih =>
    intro i st
    cases h : outcome p with
    | some e => simp [runLoop, h]
    | none => simpa [runLoop, h] using ih (i + 1) _

/-- If an executed phase's action failed, its error is the error the loop
leaves in the status. -/
lemma runLoop_error_of_mem (outcome : ManagerPhase → Option String) (total : Nat) :
    ∀ (l : List ManagerPhase) (i : Nat) (st : ManagerStatus) (p : ManagerPhase)
      (e : String), outcome p = some e →
      p ∈ (runLoop outcome total i l st).executed →
      (runLoop outcome total i l st).status.error = some e := by
  intro l
  induction l with
  | nil => intro i st p e _ hmem; simp [runLoop] at hmem
  | cons hd rest ih =>
    intro i st p e hp hmem
    cases h : outcome hd with
    | some e' =>
      simp [runLoop, h] at hmem ⊢
      subst hmem
      rw [hp] at h
      simpa [ManagerStatus.setError] using h.symm
    | none =>
      simp [runLoop, h] at hmem ⊢
      rcases hmem with rfl | hmem
      · rw [hp] at h; cases h
      · exact ih _ _ p e hp hmem

/-- If an executed phase's action failed, the loop executed nothing after
it: the failed phase is the last executed one. -/
lemma runLoop_stops (outcome : ManagerPhase → Option String) (total : Nat) :
    ∀ (l : List ManagerPhase) (i : Nat) (st : ManagerStatus) (p : ManagerPhase)
      (e : String), outcome p = some e →
      p ∈ (runLoop outcome total i l st).executed →
      (runLoop outcome total i l st).executed.getLast? = some p := by
  intro l
  induction l with
  | nil => intro i st p e _ hmem; simp [runLoop] at hmem
  | cons hd rest ih =>
    intro i st p e hp hmem
    cases h : outcome hd with
    | some e' =>
      simp [runLoop, h] at hmem ⊢
      exact hmem.symm
    | none =>
      simp [runLoop, h] at hmem ⊢
      rcases hmem with rfl | hmem
      · rw [hp] at h; cases h
      · have htl := ih (i + 1) ((st.setPhase hd).setProgress (100 * (i + 1) / total))
          p e hp hmem
        rw [List.getLast?_cons, htl]
        simp

/-- A phase in an initial segment of the phase list whose last element is
`p` sits no later than `p` in the phase order. -/
lemma take_last_idx_bound (k : Nat) (p q : ManagerPhase)
    (hq : q ∈ phasesList.take k)
    (hl : (phasesList.take k).getLast? = some p) : q.idx ≤ p.idx := by
  rcases Nat.lt_or_ge k 6 with hk | hk
  · revert hq hl
    revert p q
    interval_cases k <;> decide
  · rw [List.take_of_length_le (by simp [phasesList]; omega)] at hq hl
    revert hq hl
    revert p q
    decide

/-- The progress values the loop records, in closed form. -/
lemma runLoop_progress_form (outcome : ManagerPhase → Option String) (total : Nat) :
    ∀ (l : List ManagerPhase) (i : Nat) (st : ManagerStatus),
      (runLoop outcome total i l st).progressUpdates
        = (List.range (runLoop outcome total i l st).progressUpdates.length).map
            (fun j => 100 * (i + j + 1) / total) := by
  intro l
  induction l with
  | nil => intro i st; simp [runLoop]
  | cons p rest ih =>
    intro i st
    cases h : outcome p with
    | some e => simp [runLoop, h]
    | none =>
      simp only [runLoop, h]
      have hrec := ih (i + 1) ((st.setPhase p).setProgress (100 * (i + 1) / total))
      obtain ⟨n, hn⟩ : ∃ n, (runLoop outcome total (i + 1) rest
          ((st.setPhase p).setProgress (100 * (i + 1) / total))).progressUpdates.length = n :=
        ⟨_, rfl⟩
      rw [hn] at hrec
      simp only [List.length_cons, hn, List.range_succ_eq_map, List.map_cons, List.map_map]
      rw [hrec]
      congr 1
      refine List.map_congr_left ?_
      intro j _
      simp only [Function.comp_apply, Nat.succ_eq_add_one]
      ring_nf

/-- The loop records no more progress updates than it has phases. -/
lemma runLoop_progress_len (outcome : ManagerPhase → Option String) (total : Nat) :
    ∀ (l : List ManagerPhase) (i : Nat) (st : ManagerStatus),
      (runLoop outcome total i l st).progressUpdates.length ≤ l.length := by
  intro l
  induction l with
  | nil => intro i st; simp [runLoop]
  | cons p rest ih =>
    intro i st
    cases h : outcome p with
    | some e => simp [runLoop, h]
    | none => simpa [runLoop, h, Nat.succ_le_succ_iff] using ih (i + 1) _

/-- The progress field of the final status is the last recorded update (or
the starting progress when no phase succeeded). -/
lemma runLoop_progress_last (outcome : ManagerPhase → Option String) (total : Nat) :
    ∀ (l : List ManagerPhase) (i : Nat) (st : ManagerStatus),
      (runLoop outcome total i l st).status.progress
        = (runLoop outcome total i l st).progressUpdates.getLastD st.progress := by
  intro l
  induction l with
  | nil => intro i st; simp [runLoop]
  | cons p rest ih =>
    intro i st
    cases h : outcome p with
    | some e => simp [runLoop, h, ManagerStatus.setError, ManagerStatus.setPhase]
    | none =>
      simp only [runLoop, h, List.getLastD_cons]
      simpa [ManagerStatus.setProgress, ManagerStatus.setPhase]
        using ih (i + 1) ((st.setPhase p).setProgress (100 * (i + 1) / total))

/-! ## Claims about the phase state machine -/

/-- C5. The phase machine runs the phases in the fixed order Init,
ClusterBundle, NodeBundle, Packaging, Done (the executed phases are always
an initial segment of that list); and when an executed phase's action
returns an error, that error is recorded in the status and no later phase's
action is executed. -/
theorem run_fixed_order_stops_on_error (outcome : ManagerPhase → Option String)
    (p q : ManagerPhase) (e : String) :
    (runPhases outcome).executed
        = phasesList.take (runPhases outcome).executed.length
    ∧ (outcome p = some e → p ∈ (runPhases outcome).executed →
        (runPhases outcome).status.error = some e
        ∧ (p.idx < q.idx → q ∉ (runPhases outcome).executed)) := by
  refine ⟨runLoop_exec_take outcome phasesList.length phasesList 0 ManagerStatus.initial,
    fun hp hmem => ⟨runLoop_error_of_mem outcome phasesList.length phasesList 0
      ManagerStatus.initial p e hp hmem, fun hpq hqmem => ?_⟩⟩
  have h1 := runLoop_exec_take outcome phasesList.length phasesList 0 ManagerStatus.initial
  have h2 := runLoop_stops outcome phasesList.length phasesList 0 ManagerStatus.initial
    p e hp hmem
  have h3 := take_last_idx_bound (runPhases outcome).executed.length p q
    (h1 ▸ hqmem) (h1 ▸ h2)
  omega

/-- Witness for C5 at a concrete input: with the NodeBundle action failing,
the executed phases are the initial segment ending at NodeBundle, the error
is recorded, and Packaging was not executed. -/
theorem run_fixed_order_stops_on_error_w :
    ((runPhases (fun p => if p = .nodeBundle then some "boom" else none)).executed
        = phasesList.take (runPhases
            (fun p => if p = .nodeBundle then some "boom" else none)).executed.length)
    ∧ ((runPhases (fun p => if p = .nodeBundle then some "boom" else none)).status.error
        = some "boom")
    ∧ ManagerPhase.packaging ∉ (runPhases
        (fun p => if p = .nodeBundle then some "boom" else none)).executed := by
  have h := run_fixed_order_stops_on_error
    (fun p => if p = .nodeBundle then some "boom" else none)
    ManagerPhase.nodeBundle ManagerPhase.packaging "boom"
  have h2 := h.2 (by decide) (by decide)
  exact ⟨h.1, h2.1, h2.2 (by decide)⟩

/-- C6. Across every run, the recorded progress values are exactly
`100 * (number of completed phases) / (total number of phases)` for the
successive completed-phase counts, each an integer at most 100, the
sequence is monotonically non-decreasing, and the final status carries the
last of them (or 0 when no phase completed). -/
theorem run_progress_formula (outcome : ManagerPhase → Option String) :
    (runPhases outcome).progressUpdates
        = (List.range (runPhases outcome).progressUpdates.length).map
            (fun j => 100 * (j + 1) / phasesList.length)
    ∧ (runPhases outcome).progressUpdates.Pairwise (· ≤ ·)
    ∧ (∀ x ∈ (runPhases outcome).progressUpdates, x ≤ 100)
    ∧ (runPhases outcome).status.progress
        = (runPhases outcome).progressUpdates.getLastD 0 := by
  have hform := runLoop_progress_form outcome phasesList.length phasesList 0
    ManagerStatus.initial
  have hlen := runLoop_progress_len outcome phasesList.length phasesList 0
    ManagerStatus.initial
  have hlast := runLoop_progress_last outcome phasesList.length phasesList 0
    ManagerStatus.initial
  refine ⟨by simpa using hform, ?_, ?_, by simpa [ManagerStatus.initial] using hlast⟩
  · rw [show (runPhases outcome).progressUpdates
        = (List.range (runPhases outcome).progressUpdates.length).map
            (fun j => 100 * (0 + j + 1) / phasesList.length) from hform]
    refine List.Pairwise.map _ ?_ (List.pairwise_lt_range _)
    intro a b hab
    exact Nat.div_le_div_right (Nat.mul_le_mul_left 100 (by omega))
  · intro x hx
    rw [show (runPhases outcome).progressUpdates
        = (List.range (runPhases outcome).progressUpdates.length).map
            (fun j => 100 * (0 + j + 1) / phasesList.length) from hform] at hx
    rcases List.mem_map.mp hx with ⟨j, hj, rfl⟩
    have hj5 : j < 5 := by
      have := List.mem_range.mp hj
      have h5 : (runPhases outcome).progressUpdates.length ≤ 5 := by
        simpa [phasesList] using hlen
      omega
    calc 100 * (0 + j + 1) / phasesList.length ≤ 500 / phasesList.length :=
          Nat.div_le_div_right (by omega)
      _ ≤ 100 := by simp [phasesList]

/-! ## Claims about the ingestion handler -/

/-- C7. An upload passes structural validation exactly when the persisted
byte stream is openable as a valid zip archive; every invalid upload is
answered with a non-success response, `completeNode` is not called and the
tracker — in particular the expected set — is left unchanged, so a node
that was expected stays expected; and a valid upload from a still-expected
node is answered with a success response and removes the node from the
expected set. -/
theorem upload_validation (nodeID : String) (body : List Nat) (t : TrackerState) :
    (verifyNodeBundle body = none ↔ zipOpenable body = true)
    ∧ (verifyNodeBundle body ≠ none →
        handleNodeBundle nodeID body t
          = { respondedOK := false, completeNodeCalled := false, tracker := t })
    ∧ (verifyNodeBundle body = none → nodeID ∈ t.expectedNodes →
        (handleNodeBundle nodeID body t).respondedOK = true
        ∧ (handleNodeBundle nodeID body t).completeNodeCalled = true
        ∧ (handleNodeBundle nodeID body t).tracker.expectedNodes
            = t.expectedNodes.erase nodeID) := by
  refine ⟨?_, fun h => ?_, fun h hmem => ?_⟩
  · by_cases h : zipOpenable body <;> simp [verifyNodeBundle, h]
  · have hz : zipOpenable body = false := by
      by_cases hz : zipOpenable body
      · exact absurd (by simp [verifyNodeBundle, hz]) h
      · simpa using hz
    simp [handleNodeBundle, verifyNodeBundle, hz]
  · have hz : zipOpenable body = true := by
      by_cases hz : zipOpenable body
      · simpa using hz
      · simp [verifyNodeBundle, hz] at h
    simp [handleNodeBundle, verifyNodeBundle, hz, completeNode, hmem]

/-- Witness for C7 at concrete inputs: the empty byte stream fails
validation and its upload is rejected with the expected node untouched,
while a minimal valid archive from the same still-expected node is accepted
and completes it. -/
theorem upload_validation_w :
    (verifyNodeBundle [] ≠ none)
    ∧ (handleNodeBundle "node-a" [] { expectedNodes := ["node-a"], done := false }
        = { respondedOK := false, completeNodeCalled := false
            tracker := { expectedNodes := ["node-a"], done := false } })
    ∧ (verifyNodeBundle ([0x50, 0x4B, 0x05, 0x06] ++ List.replicate 18 0) = none)
    ∧ ((handleNodeBundle "node-a" ([0x50, 0x4B, 0x05, 0x06] ++ List.replicate 18 0)
          { expectedNodes := ["node-a"], done := false }).respondedOK = true
        ∧ (handleNodeBundle "node-a" ([0x50, 0x4B, 0x05, 0x06] ++ List.replicate 18 0)
          { expectedNodes := ["node-a"], done := false }).tracker.expectedNodes
            = ["node-a"].erase "node-a") := by
  have h1 := upload_validation "node-a" [] { expectedNodes := ["node-a"], done := false }
  have h2 := upload_validation "node-a" ([0x50, 0x4B, 0x05, 0x06] ++ List.replicate 18 0)
    { expectedNodes := ["node-a"], done := false }
  have hv2 := h2.2.2 (by decide) (by decide)
  exact ⟨by decide, h1.2.1 (by decide), by decide, hv2.1, hv2.2.2⟩

/-! ## Claims about the Init phase -/

/-- A `check` call on a manager missing any required input returns an
error. -/
lemma check_missing_isSome (m : Manager) (mk : Option String)
    (h : m.Namespaces.length = 0 ∨ (m.Namespaces.headD "").length = 0
        ∨ m.BundleName = "" ∨ m.ManagerPodIP = "" ∨ m.ImageName = ""
        ∨ m.ImagePullPolicy = "") :
    ((m.check mk).2).isSome := by
  unfold Manager.check
  rcases h with h | h | h | h | h | h <;> split_ifs <;> simp_all

/-- C9. `phaseInit` fails before any collection setup whenever a required
input is missing — an empty namespace list, bundle name, manager pod IP,
image name, or image pull policy: the phase returns an error, the signal
context is not installed and client/state initialization is never
reached. -/
theorem init_requires_configuration (m : Manager) (mkdirErr restErr : Option String)
    (h : m.NamespaceList = "" ∨ m.BundleName = "" ∨ m.ManagerPodIP = ""
        ∨ m.ImageName = "" ∨ m.ImagePullPolicy = "") :
    ((phaseInit m mkdirErr restErr).2.result).isSome
    ∧ (phaseInit m mkdirErr restErr).2.contextSet = false
    ∧ (phaseInit m mkdirErr restErr).2.clientsReached = false := by
  have hm : ((({ m with Namespaces := goSplit m.NamespaceList ',' } : Manager).check
      mkdirErr).2).isSome := by
    apply check_missing_isSome
    rcases h with h | h | h | h | h
    · right; left
      show ((goSplit m.NamespaceList ',').headD "").length = 0
      rw [h]
      decide
    · right; right; left; exact h
    · right; right; right; left; exact h
    · right; right; right; right; left; exact h
    · right; right; right; right; right; exact h
  rcases Option.isSome_iff_exists.mp hm with ⟨e, he⟩
  simp [phaseInit, he]

/-- Witness for C9 at a concrete input: a configuration with every field
set except the bundle name makes `phaseInit` fail with the context not
installed and clients never initialized. -/
theorem init_requires_configuration_w :
    ((phaseInit cfgNoBundleName none none).2.result).isSome
    ∧ (phaseInit cfgNoBundleName none none).2.contextSet = false
    ∧ (phaseInit cfgNoBundleName none none).2.clientsReached = false :=
  init_requires_configuration cfgNoBundleName none none (by right; left; rfl)

/-! ## Claims about packaging -/

/-- A `takeWhile` scan that crosses a block of satisfying elements stops
exactly at the first failing one. -/
lemma takeWhile_until (p : Char → Bool) (xs ys : List Char) (y : Char)
    (hall : ∀ x ∈ xs, p x = true) (hy : p y = false) :
    (xs ++ y :: ys).takeWhile p = xs := by
  rw [List.takeWhile_append_of_pos (by simpa using hall)]
  simp [List.takeWhile_cons, hy]

/-- On a path whose final slash-separated element ends in ".zip" and whose
stem contains no dot and no slash, `filepath.Ext` is ".zip". -/
lemma filepathExt_eq_zip (p : String) (od base : List Char)
    (hp : p.data = od ++ '/' :: (base ++ '.' :: ['z', 'i', 'p']))
    (h : ∀ c ∈ base, c ≠ '.' ∧ c ≠ '/') : filepathExt p = ".zip" := by
  have hrev : p.data.reverse
      = (['p', 'i', 'z'] ++ '.' :: base.reverse) ++ '/' :: od.reverse := by
    rw [hp]
    simp
  have hseg : p.data.reverse.takeWhile (fun c => c ≠ '/')
      = ['p', 'i', 'z'] ++ '.' :: base.reverse := by
    rw [hrev]
    refine takeWhile_until _ _ _ _ ?_ (by decide)
    intro x hx
    simp at hx
    rcases hx with rfl | rfl | rfl | rfl | hx
    · decide
    · decide
    · decide
    · decide
    · simpa using (h x hx).2
  have hmem : '.' ∈ p.data.reverse.takeWhile (fun c => c ≠ '/') := by
    rw [hseg]; simp
  have htake : (p.data.reverse.takeWhile (fun c => c ≠ '/')).takeWhile
      (fun c => c ≠ '.') = ['p', 'i', 'z'] := by
    rw [hseg]
    exact takeWhile_until _ _ _ _ (by decide) (by decide)
  unfold filepathExt
  rw [if_pos hmem, htake]
  rfl

/-- Trimming a suffix known to end a string leaves exactly the stem. -/
lemma trimSuffix_of_data (s : String) (xs suf : List Char)
    (hs : s.data = xs ++ suf) : trimSuffix s (String.mk suf) = String.mk xs := by
  unfold trimSuffix
  rw [if_pos]
  · rw [hs]
    congr 1
    have : (xs ++ suf).length - (String.mk suf).data.length = xs.length := by
      simp
    rw [this, List.take_left]
  · rw [hs]
    exact List.suffix_append xs suf

/-- Every character of the bundle-directory stem
`supportbundle_<uid>_<timestamp with dashes>` is neither a dot nor a slash,
when the UID and the timestamp contain neither. -/
lemma bundleStem_chars (uid ts : String)
    (huid : ∀ c ∈ uid.data, c ≠ '.' ∧ c ≠ '/')
    (hts : ∀ c ∈ ts.data, c ≠ '.' ∧ c ≠ '/') :
    ∀ c ∈ ("supportbundle_" ++ uid ++ "_" ++ colonsToDashes ts).data,
      c ≠ '.' ∧ c ≠ '/' := by
  intro c hc
  simp only [String.data_append] at hc
  have hlit : ∀ x ∈ "supportbundle_".data, x ≠ '.' ∧ x ≠ '/' := by decide
  have hu : ∀ x ∈ "_".data, x ≠ '.' ∧ x ≠ '/' := by decide
  simp only [List.mem_append] at hc
  rcases hc with ((hc | hc) | hc) | hc
  · exact hlit c hc
  · exact huid c hc
  · exact hu c hc
  · have : (colonsToDashes ts).data = ts.data.map (fun a => if a = ':' then '-' else a) :=
      rfl
    rw [this] at hc
    rcases List.mem_map.mp hc with ⟨a, ha, rfl⟩
    by_cases hcol : a = ':'
    · simp [hcol]
    · simpa [hcol] using hts a ha

/-- The directory `compressBundle` derives from a bundle file name produced
by `GenerateClusterBundle` is the file name without its ".zip" extension. -/
lemma bundleDir_of_name (m : Manager) (uid ts : String)
    (hname : m.bundleFileName = generateBundleFileName uid ts)
    (huid : ∀ c ∈ uid.data, c ≠ '.' ∧ c ≠ '/')
    (hts : ∀ c ∈ ts.data, c ≠ '.' ∧ c ≠ '/') :
    trimSuffix m.bundleFileName (filepathExt m.getBundlefile)
      = "supportbundle_" ++ uid ++ "_" ++ colonsToDashes ts := by
  have hstem := bundleStem_chars uid ts huid hts
  have hdata : m.bundleFileName.data
      = ("supportbundle_" ++ uid ++ "_" ++ colonsToDashes ts).data
          ++ '.' :: ['z', 'i', 'p'] := by
    rw [hname]; rfl
  have hfile : m.getBundlefile.data
      = m.OutputDir.data
          ++ '/' :: (("supportbundle_" ++ uid ++ "_" ++ colonsToDashes ts).data
            ++ '.' :: ['z', 'i', 'p']) := by
    show (m.OutputDir ++ "/" ++ m.bundleFileName).data = _
    rw [String.data_append, String.data_append, hdata]
    simp
  rw [filepathExt_eq_zip m.getBundlefile m.OutputDir.data _ hfile hstem]
  have hz : (".zip" : String) = String.mk ['.', 'z', 'i', 'p'] := rfl
  rw [hz, trimSuffix_of_data m.bundleFileName _ _ (by rw [hdata])]

/-- C8. `compressBundle` renames the working directory to
`<OutputDir>/supportbundle_<namespace UID>_<creation timestamp>` — the
bundle file name computed by `GenerateClusterBundle`, which encodes the
namespace UID and the (colon-dashed) creation timestamp, without its ".zip"
extension; it runs `zip -r` recursively on that directory producing the
single bundle archive; a failing rename or zip run makes it return the
wrapped error, which `phasePackaging` passes to the phase machine verbatim
(fatal for the run); and on success it records the archive name and byte
size in the status. -/
theorem compressBundle_packaging (m : Manager) (st : ManagerStatus)
    (renameErr zipErr : Option String) (sizeResult : Except String Int)
    (uid ts e : String) (size : Int)
    (hname : m.bundleFileName = generateBundleFileName uid ts)
    (huid : ∀ c ∈ uid.data, c ≠ '.' ∧ c ≠ '/')
    (hts : ∀ c ∈ ts.data, c ≠ '.' ∧ c ≠ '/') :
    (compressBundle m st renameErr zipErr sizeResult).renameFrom = m.getWorkingDir
    ∧ (compressBundle m st renameErr zipErr sizeResult).renameTo
        = joinPath m.OutputDir ("supportbundle_" ++ uid ++ "_" ++ colonsToDashes ts)
    ∧ (renameErr = some e →
        (compressBundle m st renameErr zipErr sizeResult).result
          = some ("fail to compress bundle: " ++ e))
    ∧ (renameErr = none → zipErr = some e →
        (compressBundle m st renameErr zipErr sizeResult).result
          = some ("fail to compress bundle: " ++ e))
    ∧ (renameErr = none →
        (compressBundle m st renameErr zipErr sizeResult).zipArgs
          = some ["-r", m.getBundlefile,
              "supportbundle_" ++ uid ++ "_" ++ colonsToDashes ts])
    ∧ (renameErr = none → zipErr = none → sizeResult = .ok size →
        (compressBundle m st renameErr zipErr sizeResult).result = none
        ∧ (compressBundle m st renameErr zipErr sizeResult).status
            = st.setFileinfo m.bundleFileName size)
    ∧ phasePackaging m st renameErr zipErr sizeResult
        = (compressBundle m st renameErr zipErr sizeResult).result := by
  have hdir := bundleDir_of_name m uid ts hname huid hts
  refine ⟨?_, ?_, fun h1 => ?_, fun h1 h2 => ?_, fun h1 => ?_, fun h1 h2 h3 => ?_, rfl⟩
  · rcases renameErr with _ | e1 <;> rcases zipErr with _ | e2 <;>
      rcases sizeResult with e3 | sz <;> simp [compressBundle]
  · rcases renameErr with _ | e1 <;> rcases zipErr with _ | e2 <;>
      rcases sizeResult with e3 | sz <;> simp [compressBundle, hdir]
  · subst h1; simp [compressBundle]
  · subst h1; subst h2; simp [compressBundle]
  · subst h1
    rcases zipErr with _ | e2 <;> rcases sizeResult with e3 | sz <;>
      simp [compressBundle, hdir]
  · subst h1; subst h2; subst h3; simp [compressBundle]

/-- Witness for C8 at a concrete input: with the rename, the zip run and
the stat succeeding, the working directory is renamed to the UID-and-
timestamp-derived directory, the zip command is run recursively on it, and
the file name and size land in the status. -/
theorem compressBundle_packaging_w :
    (compressBundle cfgPackaging ManagerStatus.initial none none (.ok 1234)).renameTo
      = joinPath cfgPackaging.OutputDir
          ("supportbundle_" ++ "abc-123" ++ "_" ++ colonsToDashes "2021-07-01T08:12:33Z")
    ∧ (compressBundle cfgPackaging ManagerStatus.initial none none (.ok 1234)).zipArgs
      = some ["-r", cfgPackaging.getBundlefile,
          "supportbundle_" ++ "abc-123" ++ "_" ++ colonsToDashes "2021-07-01T08:12:33Z"]
    ∧ (compressBundle cfgPackaging ManagerStatus.initial none none (.ok 1234)).result = none
    ∧ (compressBundle cfgPackaging ManagerStatus.initial none none (.ok 1234)).status
        = ManagerStatus.initial.setFileinfo cfgPackaging.bundleFileName 1234 := by
  have h := compressBundle_packaging cfgPackaging ManagerStatus.initial none none
    (.ok 1234) "abc-123" "2021-07-01T08:12:33Z" "" 1234 rfl (by decide) (by decide)
  have hs := h.2.2.2.2.2.1 rfl rfl rfl
  exact ⟨h.2.1, h.2.2.2.2.1 rfl, hs.1, hs.2⟩

/-! ## Claims about the whole-run behaviour of `Run` -/

/-- C10 (counterexample). A run whose configuration fails `check` (here:
the bundle name missing, every other field set) does not return nil: the
Init phase fails before installing the signal context, so `Run` reaches
`<-m.context.Done()` with the context still nil and panics instead of
returning — even though this is a run in which a phase failed. -/
theorem run_nil_context_panic_cex :
    runManager cfgNoBundleName none none (fun _ => none)
      = RunEnd.nilContextPanic (runPhases (fun p =>
          if p = ManagerPhase.init then some "support bundle name is not specified"
          else none))
    ∧ (runManager cfgNoBundleName none none (fun _ => none)).returnValue = none := by
  decide

/-- C10 (amended). Provided the configuration passes `check` — so that the
Init phase installs the signal context — `Run` returns nil for every
combination of phase outcomes, even when a phase fails: phase errors are
observable only through the status trace, never through `Run`'s return
value, and the return happens only after the final wait on the external
context. When `check` fails, `Run` instead panics on the nil context. -/
theorem run_returns_nil_after_wait (m : Manager) (mk rest : Option String)
    (outcome : ManagerPhase → Option String)
    (h : ((({ m with Namespaces := goSplit m.NamespaceList ',' } : Manager).check
        mk).2) = none) :
    runManager m mk rest outcome
      = RunEnd.waitedForContextThenNil
          (runPhases (fun p => if p = ManagerPhase.init then rest else outcome p))
    ∧ (runManager m mk rest outcome).returnValue = some none := by
  have hpi : (phaseInit m mk rest).2
      = { result := rest, contextSet := true, clientsReached := true } := by
    simp [phaseInit, h]
  constructor <;> simp [runManager, hpi, RunEnd.returnValue]

/-- Witness for C10's amended claim at a concrete input: a complete
configuration passes `check`, and even with the Packaging phase failing,
`Run` waits on the context and returns nil. -/
theorem run_returns_nil_after_wait_w :
    ((({ cfgComplete with Namespaces := goSplit cfgComplete.NamespaceList ',' }
        : Manager).check none).2 = none)
    ∧ (runManager cfgComplete none none
        (fun p => if p = ManagerPhase.packaging then some "pack failed" else none)
        ).returnValue = some none :=
  ⟨by decide,
    (run_returns_nil_after_wait cfgComplete none none
      (fun p => if p = ManagerPhase.packaging then some "pack failed" else none)
      (by decide)).2⟩

end SupportBundleKit
